import Mathlib

/-!
Verification development for the `mailq-monitor` Go program.

The Go source (`mailq-monitor.go`) probes a fleet of servers over SSH, parses
each command's output as an integer, compares it against a per-server
threshold, and sends one consolidated alert email via SMTP when any server
meets or exceeds its threshold.

The embedding below is a shallow one: the pure parts of the program (string
formatting, parsing, validation, report assembly) are translated directly
into Lean functions; the effectful SSH and SMTP transports are represented by
explicit oracle records (`SSHTransport`, `SMTPWorld`) that determine the
outcome of each external call, and the observable interactions are recorded
as explicit traces.
-/

namespace MailqMonitor

/-! ### Character classes (ASCII, as used by the Go regexes) -/

/-- ASCII lowercase letter, the `[a-z]` regex class. -/
def isLowerAZ (c : Char) : Bool := 'a' ≤ c && c ≤ 'z'

/-- ASCII uppercase letter, the `[A-Z]` regex class. -/
def isUpperAZ (c : Char) : Bool := 'A' ≤ c && c ≤ 'Z'

/-- ASCII digit, the `[0-9]` regex class. -/
def isDigitC (c : Char) : Bool := '0' ≤ c && c ≤ '9'

/-- ASCII alphanumeric, the `[a-zA-Z0-9]` regex class. -/
def isAlnumC (c : Char) : Bool := isLowerAZ c || isUpperAZ c || isDigitC c

/-- ASCII letter, the `[a-zA-Z]` regex class. -/
def isAlphaC (c : Char) : Bool := isLowerAZ c || isUpperAZ c

/-! ### Go standard-library string helpers used by the program -/

/-- Whitespace as recognized by Go's `unicode.IsSpace` (used by
`strings.TrimSpace`): ASCII whitespace, NEL, NBSP and the Unicode space
separators. -/
def goIsSpace (c : Char) : Bool :=
  [0x09, 0x0A, 0x0B, 0x0C, 0x0D, 0x20, 0x85, 0xA0, 0x1680,
   0x2000, 0x2001, 0x2002, 0x2003, 0x2004, 0x2005, 0x2006, 0x2007,
   0x2008, 0x2009, 0x200A, 0x2028, 0x2029, 0x202F, 0x205F, 0x3000].contains c.toNat

/-- Go's `strings.TrimSpace`: remove leading and trailing whitespace. -/
def trimSpace (s : String) : String :=
  String.mk (((s.data.dropWhile goIsSpace).reverse.dropWhile goIsSpace).reverse)

/-- Hex digit for a nibble, lowercase, as produced by Go's quoting. -/
def hexDigit (n : Nat) : Char :=
  if n < 10 then Char.ofNat (48 + n) else Char.ofNat (87 + n)

/-- Quoting of one character as in Go's `strconv.Quote`: the common escape
sequences for control characters, backslash-escaped quote and backslash;
printable runes are kept verbatim (non-printable runes above 0x7f, which Go
renders in `\u` form, do not occur in the inputs considered here). -/
def goQuoteChar (c : Char) : String :=
  if c = '"' then "\\\""
  else if c = '\\' then "\\\\"
  else if c = '\x07' then "\\a"
  else if c = '\x08' then "\\b"
  else if c = '\x0c' then "\\f"
  else if c = '\n' then "\\n"
  else if c = '\r' then "\\r"
  else if c = '\t' then "\\t"
  else if c = '\x0b' then "\\v"
  else if c.toNat < 0x20 || c.toNat = 0x7f then
    String.mk ['\\', 'x', hexDigit (c.toNat / 16), hexDigit (c.toNat % 16)]
  else String.singleton c

/-- Go's `strconv.Quote`, restricted as described at `goQuoteChar`. -/
def goQuote (s : String) : String :=
  "\"" ++ String.join (s.data.map goQuoteChar) ++ "\""

/-- Numeric value of a list of ASCII digits, base 10. -/
def digitsVal (cs : List Char) : Nat :=
  cs.foldl (fun a c => a * 10 + (c.toNat - 48)) 0

/-- Go's `strconv.Atoi` on a 64-bit platform: optional sign, one or more
decimal digits spanning the whole string; syntax errors and values outside
the `int64` range produce the corresponding `*strconv.NumError` message. -/
def atoi (s : String) : Except String Int :=
  let parse : List Char × Bool :=
    match s.data with
    | '+' :: rest => (rest, false)
    | '-' :: rest => (rest, true)
    | cs => (cs, false)
  let digits := parse.1
  let neg := parse.2
  if digits.isEmpty || !(digits.all isDigitC) then
    Except.error ("strconv.Atoi: parsing " ++ goQuote s ++ ": invalid syntax")
  else if (!neg && digitsVal digits > 9223372036854775807) ||
          (neg && digitsVal digits > 9223372036854775808) then
    Except.error ("strconv.Atoi: parsing " ++ goQuote s ++ ": value out of range")
  else
    Except.ok (if neg then -(digitsVal digits : Int) else (digitsVal digits : Int))

/-! ### Data model (`Config`, `Server`, `Email` structs of the source) -/

/-- The `Server` struct: one SSH target. `Threshold` is a Go `int`. -/
structure Server where
  User : String
  Password : String
  Host : String
  Port : String
  Commands : String
  Threshold : Int
  deriving DecidableEq

/-- The `GetPort` helper: default port `"22"` when `Port` is omitted. -/
def Server.GetPort (s : Server) : String :=
  if s.Port = "" then "22" else s.Port

/-- The `Email` struct: SMTP relay and message settings. -/
structure Email where
  SMTPServer : String
  SMTPPort : String
  From : String
  To : List String
  Cc : List String
  Bcc : List String
  Subject : String
  Messages : String
  deriving DecidableEq

/-- The `Config` struct: the whole configuration document. -/
structure Config where
  Servers : List Server
  Email : Email
  deriving DecidableEq

/-! ### SSH probing (`getSSHAuthMethod`, `runSSHCommand`)

The SSH library calls are external effects; they are represented by oracles
that fix the outcome of each call, while the logic around them is translated
from the source. -/

/-- An authentication method as produced by `getSSHAuthMethod`:
`ssh.Password` for an inline password, `ssh.PublicKeys` from the agent. -/
inductive AuthMethod where
  | password (secret : String)
  | publicKeys
  deriving DecidableEq

/-- The environment and agent-socket world consulted by `getSSHAuthMethod`:
the `SSH_AUTH_SOCK` value (`os.Getenv` yields `""` when unset), the outcome
of `net.Dial` on that socket, and the outcome of `agentClient.Signers()`. -/
structure AgentWorld where
  sshAuthSock : String
  dialAgent : String → Except String Unit
  signers : Except String Unit

/-- The `getSSHAuthMethod` function: inline password wins; otherwise the
agent named by `SSH_AUTH_SOCK` is consulted, each failure mapped to the
source's error message. -/
def getSSHAuthMethod (w : AgentWorld) (password : String) : Except String AuthMethod :=
  if password ≠ "" then Except.ok (AuthMethod.password password)
  else if w.sshAuthSock = "" then
    Except.error "SSH_AUTH_SOCK variable is not found"
  else
    match w.dialAgent w.sshAuthSock with
    | Except.error e => Except.error ("failed to connect to SSH agent: " ++ e)
    | Except.ok _ =>
      match w.signers with
      | Except.error e => Except.error ("failed to get signers from SSH agent: " ++ e)
      | Except.ok _ => Except.ok AuthMethod.publicKeys

/-- Outcome of `session.Run`: the separately captured standard-output and
standard-error buffers and the run error, if any. -/
structure SessionExec where
  stdout : String
  stderr : String
  runErr : Option String
  deriving DecidableEq

/-- The SSH transport oracle: the agent world, and the outcomes of
`ssh.Dial` (keyed by the dialled address), `client.NewSession` and
`session.Run` (keyed by address and command). -/
structure SSHTransport where
  agent : AgentWorld
  dial : String → Except String Unit
  newSession : String → Except String Unit
  exec : String → String → SessionExec

/-- The `runSSHCommand` function: resolve authentication, dial
`host:GetPort()`, open a session, run the command; each failure carries the
source's message (command failure carries the captured stderr), success
returns the whitespace-trimmed stdout. -/
def runSSHCommand (t : SSHTransport) (server : Server) : Except String String :=
  match getSSHAuthMethod t.agent server.Password with
  | Except.error e => Except.error e
  | Except.ok _ =>
    let address := server.Host ++ ":" ++ server.GetPort
    match t.dial address with
    | Except.error e => Except.error ("failed to connect to " ++ server.Host ++ ": " ++ e)
    | Except.ok _ =>
      match t.newSession address with
      | Except.error e => Except.error ("failed to create session on " ++ server.Host ++ ": " ++ e)
      | Except.ok _ =>
        let ex := t.exec address server.Commands
        match ex.runErr with
        | some m =>
          Except.error ("failed to run command on " ++ server.Host ++ ": " ++ m
            ++ ", stderr: " ++ ex.stderr)
        | none => Except.ok (trimSpace ex.stdout)

/-! ### The fleet-checking loop of `main` -/

/-- The mutable state of `main`'s per-server loop: the accumulated `alerts`
slice, the `alertMaker` flag, and the `log.Printf` diagnostics emitted so
far. -/
structure FleetState where
  alerts : List String
  alertMaker : Bool
  logs : List String
  deriving DecidableEq

/-- One iteration of `main`'s loop over `config.Servers`: probe the server,
on failure log and continue; parse the output, on failure log and continue;
otherwise append the report line, starred (and raising `alertMaker`) exactly
when `value >= server.Threshold`. -/
def checkServer (t : SSHTransport) (st : FleetState) (server : Server) : FleetState :=
  match runSSHCommand t server with
  | Except.error e =>
    { st with logs := st.logs ++ ["Error executing command on " ++ server.Host ++ ": " ++ e] }
  | Except.ok output =>
    match atoi output with
    | Except.error e =>
      { st with logs := st.logs ++ ["Error parsing output on " ++ server.Host ++ ": " ++ e] }
    | Except.ok value =>
      if value ≥ server.Threshold then
        { st with alerts := st.alerts ++ [server.Host ++ ": " ++ toString value ++ " *"],
                  alertMaker := true }
      else
        { st with alerts := st.alerts ++ [server.Host ++ ": " ++ toString value] }

/-- The whole fleet-checking loop of `main`, started from the zero-valued
`alerts`/`alertMaker` declarations. -/
def fleetCheck (t : SSHTransport) (servers : List Server) : FleetState :=
  servers.foldl (checkServer t) ⟨[], false, []⟩

/-! ### Email composition and submission (`sendEmail`) -/

/-- The body built by `sendEmail`:
`fmt.Sprintf("%s\n\n%s", emailConfig.Messages, strings.Join(alerts, "\n"))`. -/
def composeBody (emailConfig : Email) (alerts : List String) : String :=
  emailConfig.Messages ++ "\n\n" ++ String.intercalate "\n" alerts

/-- The full message text built by `sendEmail`: `From` and `To` headers, a
`Cc` header only when the Cc list is non-empty, then `Subject`, a blank
line, and the body. The Bcc list is never written into the message. -/
def composeMsg (emailConfig : Email) (alerts : List String) : String :=
  "From: " ++ emailConfig.From ++ "\nTo: " ++ String.intercalate ", " emailConfig.To ++ "\n"
    ++ (if emailConfig.Cc.length > 0 then
          "Cc: " ++ String.intercalate ", " emailConfig.Cc ++ "\n"
        else "")
    ++ "Subject: " ++ emailConfig.Subject ++ "\n\n" ++ composeBody emailConfig alerts

/-- One observable SMTP interaction performed by `sendEmail`. -/
inductive SMTPStep where
  | dial (addr : String)
  | mail (sender : String)
  | rcpt (addr : String)
  | data
  | write (msg : String)
  deriving DecidableEq

/-- The SMTP relay oracle: outcomes of `smtp.Dial`, `client.Mail`,
`client.Rcpt` (keyed by recipient), `client.Data` and `wc.Write`. -/
structure SMTPWorld where
  dial : String → Except String Unit
  mail : String → Except String Unit
  rcpt : String → Except String Unit
  dataCall : Except String Unit
  writeCall : Except String Unit

/-- The recipient loop of `sendEmail`: issue one `RCPT` per address in
order, aborting at the first refusal with the source's error message. The
trace records the commands actually issued. -/
def rcptLoop (w : SMTPWorld) : List String → Except String Unit × List SMTPStep
  | [] => (Except.ok (), [])
  | r :: rest =>
    match w.rcpt r with
    | Except.error e =>
      (Except.error ("failed to set recipient " ++ r ++ ": " ++ e), [SMTPStep.rcpt r])
    | Except.ok _ =>
      let tail := rcptLoop w rest
      (tail.1, SMTPStep.rcpt r :: tail.2)

/-- The `sendEmail` function: immediate success on an empty alert list (no
SMTP interaction at all); otherwise compose the message, connect to the
relay, issue sender, recipients (`To`, `Cc`, `Bcc` in order) and the data
transfer, aborting with the source's error message at the first failure.
The returned trace lists the SMTP interactions performed. -/
def sendEmail (w : SMTPWorld) (emailConfig : Email) (alerts : List String) :
    Except String Unit × List SMTPStep :=
  if alerts.length = 0 then (Except.ok (), [])
  else
    let msg := composeMsg emailConfig alerts
    let recipients := emailConfig.To ++ emailConfig.Cc ++ emailConfig.Bcc
    let addr := emailConfig.SMTPServer ++ ":" ++ emailConfig.SMTPPort
    match w.dial addr with
    | Except.error e =>
      (Except.error ("failed to connect to SMTP server: " ++ e), [SMTPStep.dial addr])
    | Except.ok _ =>
      match w.mail emailConfig.From with
      | Except.error e =>
        (Except.error ("failed to set sender: " ++ e),
         [SMTPStep.dial addr, SMTPStep.mail emailConfig.From])
      | Except.ok _ =>
        let rl := rcptLoop w recipients
        match rl.1 with
        | Except.error e =>
          (Except.error e, SMTPStep.dial addr :: SMTPStep.mail emailConfig.From :: rl.2)
        | Except.ok _ =>
          match w.dataCall with
          | Except.error e =>
            (Except.error ("failed to send email data: " ++ e),
             SMTPStep.dial addr :: SMTPStep.mail emailConfig.From :: rl.2 ++ [SMTPStep.data])
          | Except.ok _ =>
            match w.writeCall with
            | Except.error e =>
              (Except.error ("failed to write email body: " ++ e),
               SMTPStep.dial addr :: SMTPStep.mail emailConfig.From :: rl.2
                 ++ [SMTPStep.data, SMTPStep.write msg])
            | Except.ok _ =>
              (Except.ok (),
               SMTPStep.dial addr :: SMTPStep.mail emailConfig.From :: rl.2
                 ++ [SMTPStep.data, SMTPStep.write msg])

/-- The dispatch tail of `main`: `sendEmail` is called only when
`alertMaker` is set; a submission error is logged with `log.Printf` (and
nothing else happens). Returns the SMTP trace and the logged lines. -/
def mainDispatch (w : SMTPWorld) (emailConfig : Email) (st : FleetState) :
    List SMTPStep × List String :=
  if st.alertMaker then
    match sendEmail w emailConfig st.alerts with
    | (Except.error e, steps) => (steps, ["Error sending email: " ++ e])
    | (Except.ok _, steps) => (steps, [])
  else ([], [])

/-! ### Configuration validation (`validateConfig`) -/

/-- The username regex `^[a-z_][a-z0-9_-]{0,31}$`. -/
def validUsername (s : String) : Bool :=
  match s.data with
  | [] => false
  | c :: rest =>
    (isLowerAZ c || c = '_') && rest.length ≤ 31 &&
      rest.all (fun d => isLowerAZ d || isDigitC d || d = '_' || d = '-')

/-- Rest of a hostname label after its leading alphanumeric: the regex
fragment `(-?[a-zA-Z0-9])*` (each hyphen must be followed by an
alphanumeric). -/
def labelRest : List Char → Bool
  | [] => true
  | ['-'] => false
  | '-' :: c :: rest => isAlnumC c && labelRest rest
  | c :: rest => isAlnumC c && labelRest rest

/-- One hostname label: the regex fragment `[a-zA-Z0-9](-?[a-zA-Z0-9])*`. -/
def validLabel : List Char → Bool
  | [] => false
  | c :: rest => isAlnumC c && labelRest rest

/-- Split a character list at every `'.'` (every dot separates, so empty
labels appear for leading, trailing or doubled dots). -/
def splitDot : List Char → List (List Char)
  | [] => [[]]
  | '.' :: rest => [] :: splitDot rest
  | c :: rest =>
    match splitDot rest with
    | l :: ls => (c :: l) :: ls
    | [] => [[c]]

/-- The hostname regex `^(([a-zA-Z0-9](-?[a-zA-Z0-9])*)\.)*([A-Za-z0-9](-?[A-Za-z0-9])*)$`:
every dot-separated label is valid (and non-empty). -/
def validHostname (s : String) : Bool :=
  (splitDot s.data).all validLabel

/-- One dotted-decimal IPv4 field as accepted by `net.ParseIP`: one to
three digits, value at most 255, no leading zero. -/
def validOctet (cs : List Char) : Bool :=
  !cs.isEmpty && cs.length ≤ 3 && cs.all isDigitC && digitsVal cs ≤ 255 &&
    (cs.head? ≠ some '0' || cs = ['0'])

/-- The check `ip := net.ParseIP(host); ip != nil && ip.To4() != nil`,
restricted to dotted-quad literals (IPv4-mapped IPv6 text forms, which Go
would also accept here, are not modelled; no claim depends on them). -/
def goParseIPv4 (s : String) : Bool :=
  match splitDot s.data with
  | [a, b, c, d] => validOctet a && validOctet b && validOctet c && validOctet d
  | _ => false

/-- One character of the command regex class `[a-zA-Z0-9_\-./\|\s><{},=]`;
RE2's `\s` is `[\t\n\f\r ]`. -/
def goCommandChar (c : Char) : Bool :=
  isAlnumC c ||
    c ∈ ['_', '-', '.', '/', '|', '>', '<', '{', '}', ',', '='] ||
    c ∈ ['\t', '\n', '\x0c', '\r', ' ']

/-- The command regex `^[a-zA-Z0-9_\-./\|\s><{},=]+$`. -/
def validCommand (s : String) : Bool :=
  !s.data.isEmpty && s.data.all goCommandChar

/-- One character of the email local-part class `[a-zA-Z0-9._%+-]`. -/
def isLocalChar (c : Char) : Bool :=
  isAlnumC c || c ∈ ['.', '_', '%', '+', '-']

/-- One character of the email domain class `[a-zA-Z0-9.-]`. -/
def isDomainChar (c : Char) : Bool :=
  isAlnumC c || c = '.' || c = '-'

/-- The domain part of the email regex, `[a-zA-Z0-9.-]+\.[a-zA-Z]{2,}$`:
a final all-alphabetic run of length at least two, preceded by a literal
dot, preceded by a non-empty run of domain characters. -/
def validEmailDomain (domain : List Char) : Bool :=
  let r := domain.reverse
  let tld := r.takeWhile isAlphaC
  2 ≤ tld.length &&
    match r.dropWhile isAlphaC with
    | '.' :: d => !d.isEmpty && d.all isDomainChar
    | _ => false

/-- The email regex `^[a-zA-Z0-9._%+-]+@[a-zA-Z0-9.-]+\.[a-zA-Z]{2,}$`. -/
def validEmailAddr (s : String) : Bool :=
  let localPart := s.data.takeWhile (fun c => c ≠ '@')
  let rest := s.data.dropWhile (fun c => c ≠ '@')
  !localPart.isEmpty && localPart.all isLocalChar &&
    match rest with
    | '@' :: domain => !(domain.contains '@') && validEmailDomain domain
    | _ => false

/-- One iteration of `validateConfig`'s server loop. The loop variable
`server` is Go's per-iteration copy; the second component is that copy's
final value (the default-port assignment `server.Port = "22"` writes to it
when every check has passed), which the loop then discards. -/
def validateServer (i : Nat) (server : Server) : Option String × Server :=
  if server.User = "" ∨ ¬ validUsername server.User = true then
    (some ("server[" ++ toString i ++ "]: 'user' is required"), server)
  else if server.Host = "" then
    (some ("server[" ++ toString i ++ "]: 'host' is required"), server)
  else if ¬ (validHostname server.Host || goParseIPv4 server.Host) = true then
    (some ("server[" ++ toString i ++ "]: 'host' must be a valid hostname or IPv4 address"),
     server)
  else if server.Commands = "" then
    (some ("server[" ++ toString i ++ "]: 'commands' is required"), server)
  else if ¬ validCommand server.Commands = true then
    (some ("server[" ++ toString i ++ "]: 'commands' contains invalid characters"), server)
  else if server.Threshold < 0 then
    (some ("server[" ++ toString i ++ "]: 'threshold' must be zero or a positive integer"),
     server)
  else
    (none, if server.Port = "" then { server with Port := "22" } else server)

/-- The server loop of `validateConfig`: first error aborts; the updated
per-iteration copies are discarded, exactly as Go's `range` copy is. -/
def validateServersLoop : Nat → List Server → Option String
  | _, [] => none
  | i, s :: rest =>
    match (validateServer i s).1 with
    | some e => some e
    | none => validateServersLoop (i + 1) rest

/-- The recipient-address loop of `validateConfig` for one field. -/
def validateRecipients (fieldName : String) : Nat → List String → Option String
  | _, [] => none
  | i, r :: rest =>
    if !validEmailAddr r then
      some ("'" ++ fieldName ++ "[" ++ toString i ++ "]' must be a valid email address")
    else validateRecipients fieldName (i + 1) rest

/-- The email-settings checks of `validateConfig`. The source iterates the
`to`/`cc`/`bcc` fields via a Go map, whose iteration order is unspecified;
this model fixes the order `to`, `cc`, `bcc` (only the error message, never
the presence of an error, depends on that order). -/
def validateEmail (email : Email) : Option String :=
  if email.SMTPServer = "" then
    some "'smtp_server' is required in email configuration"
  else
    match atoi email.SMTPPort with
    | Except.error _ => some "'smtp_port' must be a valid number between 1 and 65535"
    | Except.ok port =>
      if port < 1 || port > 65535 then
        some "'smtp_port' must be a valid number between 1 and 65535"
      else if email.From = "" then
        some "'from' is required in email configuration"
      else if !validEmailAddr email.From then
        some "'from' must be a valid email address"
      else
        match validateRecipients "to" 0 email.To with
        | some e => some e
        | none =>
          match validateRecipients "cc" 0 email.Cc with
          | some e => some e
          | none => validateRecipients "bcc" 0 email.Bcc

/-- The `validateConfig` function: empty server list, then the per-server
loop, then the email settings. -/
def validateConfig (config : Config) : Option String :=
  if config.Servers.length = 0 then
    some "no servers defined in the configuration"
  else
    match validateServersLoop 0 config.Servers with
    | some e => some e
    | none => validateEmail config.Email

/-- `validateConfig` together with the configuration the caller observes
afterwards. The function receives its `Config` by value, and the loop
writes only to the per-iteration copy `server` (never through the shared
`Servers` slice backing), so the caller-observable configuration is the
input unchanged. -/
def validateConfigFull (config : Config) : Option String × Config :=
  (validateConfig config, config)

/-! ### The whole of `main` after configuration loading -/

/-- Result of one run of `main` (after the configuration file has been
read): the final fleet state, the SMTP trace, the dispatch-phase log
lines, and the process exit status. -/
structure RunResult where
  fleet : FleetState
  smtpSteps : List SMTPStep
  dispatchLogs : List String
  exitCode : Nat
  deriving DecidableEq

/-- The body of `main` from `validateConfig` on: an invalid configuration
is fatal (`log.Fatalf` exits with status 1 before any probing); otherwise
the fleet loop runs, the dispatch tail runs, and `main` returns normally —
the process exits with status 0 whatever `sendEmail` returned. -/
def mainRun (t : SSHTransport) (w : SMTPWorld) (config : Config) : RunResult :=
  match validateConfig config with
  | some _ => ⟨⟨[], false, []⟩, [], [], 1⟩
  | none =>
    let st := fleetCheck t config.Servers
    let d := mainDispatch w config.Email st
    ⟨st, d.1, d.2, 0⟩

/-! ### Per-server summary functions and the fold decomposition -/

/-- The integer value a server contributes, when both its probe and the
parse succeed. -/
def serverValue (t : SSHTransport) (s : Server) : Option Int :=
  match runSSHCommand t s with
  | Except.error _ => none
  | Except.ok out => (atoi out).toOption

/-- The report line a server contributes, when it contributes one. -/
def serverLine (t : SSHTransport) (s : Server) : Option String :=
  (serverValue t s).map fun v =>
    s.Host ++ ": " ++ toString v ++ (if v ≥ s.Threshold then " *" else "")

/-- Whether a server's probe raises the `alertMaker` flag. -/
def serverExceeded (t : SSHTransport) (s : Server) : Bool :=
  match serverValue t s with
  | some v => decide (v ≥ s.Threshold)
  | none => false

/-- The diagnostic a failing server contributes to the log. -/
def serverDiag (t : SSHTransport) (s : Server) : Option String :=
  match runSSHCommand t s with
  | Except.error e => some ("Error executing command on " ++ s.Host ++ ": " ++ e)
  | Except.ok out =>
    match atoi out with
    | Except.error e => some ("Error parsing output on " ++ s.Host ++ ": " ++ e)
    | Except.ok _ => none

/-- Pointwise combination of two fleet states: the loop only ever appends
to `alerts` and `logs` and disjoins into `alertMaker`. -/
def stApp (a b : FleetState) : FleetState :=
  ⟨a.alerts ++ b.alerts, a.alertMaker || b.alertMaker, a.logs ++ b.logs⟩

theorem stApp_assoc (a b c : FleetState) : stApp (stApp a b) c = stApp a (stApp b c) := by
  simp [stApp, Bool.or_assoc]

theorem stApp_empty (a : FleetState) : stApp a ⟨[], false, []⟩ = a := by
  simp [stApp]

theorem stApp_empty_left (a : FleetState) : stApp ⟨[], false, []⟩ a = a := by
  simp [stApp]

/-- One loop iteration only appends its own contribution to the state. -/
theorem checkServer_eq_stApp (t : SSHTransport) (st : FleetState) (s : Server) :
    checkServer t st s = stApp st (checkServer t ⟨[], false, []⟩ s) := by
  unfold checkServer stApp
  cases hr : runSSHCommand t s with
  | error e => simp [hr]
  | ok out =>
    cases ha : atoi out with
    | error e => simp [hr, ha]
    | ok v =>
      by_cases hv : v ≥ s.Threshold <;> simp [hr, ha, hv]

theorem foldl_checkServer (t : SSHTransport) (l : List Server) :
    ∀ st : FleetState, l.foldl (checkServer t) st = stApp st (fleetCheck t l) := by
  induction l with
  | nil => intro st; simp [fleetCheck, List.foldl_nil, stApp_empty]
  | cons s l ih =>
    intro st
    have hr : fleetCheck t (s :: l)
        = stApp (checkServer t ⟨[], false, []⟩ s) (fleetCheck t l) := by
      show List.foldl (checkServer t) ⟨[], false, []⟩ (s :: l) = _
      rw [List.foldl_cons, ih, checkServer_eq_stApp t ⟨[], false, []⟩ s, stApp_empty_left]
    rw [List.foldl_cons, ih, checkServer_eq_stApp t st s, hr, stApp_assoc]

theorem fleetCheck_cons (t : SSHTransport) (s : Server) (l : List Server) :
    fleetCheck t (s :: l) = stApp (checkServer t ⟨[], false, []⟩ s) (fleetCheck t l) := by
  show List.foldl (checkServer t) ⟨[], false, []⟩ (s :: l) = _
  rw [List.foldl_cons, foldl_checkServer, checkServer_eq_stApp, stApp_empty_left]

theorem fleetCheck_append (t : SSHTransport) (l₁ l₂ : List Server) :
    fleetCheck t (l₁ ++ l₂) = stApp (fleetCheck t l₁) (fleetCheck t l₂) := by
  rw [fleetCheck, List.foldl_append, ← fleetCheck, foldl_checkServer]

/-- Alert contribution of one iteration, in terms of `serverLine`. -/
theorem checkServer_alerts (t : SSHTransport) (s : Server) :
    (checkServer t ⟨[], false, []⟩ s).alerts = (serverLine t s).toList := by
  unfold checkServer serverLine serverValue
  cases hr : runSSHCommand t s with
  | error e => simp [hr]
  | ok out =>
    cases ha : atoi out with
    | error e => simp [hr, ha, Except.toOption]
    | ok v =>
      by_cases hv : v ≥ s.Threshold <;> simp [hr, ha, Except.toOption, hv]

/-- Flag contribution of one iteration, in terms of `serverExceeded`. -/
theorem checkServer_flag (t : SSHTransport) (s : Server) :
    (checkServer t ⟨[], false, []⟩ s).alertMaker = serverExceeded t s := by
  unfold checkServer serverExceeded serverValue
  cases hr : runSSHCommand t s with
  | error e => simp [hr]
  | ok out =>
    cases ha : atoi out with
    | error e => simp [hr, ha, Except.toOption]
    | ok v =>
      by_cases hv : v ≥ s.Threshold <;> simp [hr, ha, Except.toOption, hv]

/-- Log contribution of one iteration, in terms of `serverDiag`. -/
theorem checkServer_logs (t : SSHTransport) (s : Server) :
    (checkServer t ⟨[], false, []⟩ s).logs = (serverDiag t s).toList := by
  unfold checkServer serverDiag
  cases hr : runSSHCommand t s with
  | error e => simp [hr]
  | ok out =>
    cases ha : atoi out with
    | error e => simp [hr, ha]
    | ok v =>
      by_cases hv : v ≥ s.Threshold <;> simp [hr, ha, hv]

/-- The report lines are exactly the per-server contributions, in the
configured order. -/
theorem fleetCheck_alerts (t : SSHTransport) (l : List Server) :
    (fleetCheck t l).alerts = l.filterMap (serverLine t) := by
  induction l with
  | nil => rfl
  | cons s l ih =>
    rw [fleetCheck_cons]
    show (checkServer t ⟨[], false, []⟩ s).alerts ++ (fleetCheck t l).alerts = _
    rw [checkServer_alerts, ih, List.filterMap_cons]
    cases serverLine t s <;> simp

/-- The flag is the disjunction of the per-server exceedances. -/
theorem fleetCheck_flag (t : SSHTransport) (l : List Server) :
    (fleetCheck t l).alertMaker = l.any (serverExceeded t) := by
  induction l with
  | nil => rfl
  | cons s l ih =>
    rw [fleetCheck_cons]
    show ((checkServer t ⟨[], false, []⟩ s).alertMaker || (fleetCheck t l).alertMaker) = _
    rw [checkServer_flag, ih, List.any_cons]

/-- The log lines are exactly the per-server diagnostics, in order. -/
theorem fleetCheck_logs (t : SSHTransport) (l : List Server) :
    (fleetCheck t l).logs = l.filterMap (serverDiag t) := by
  induction l with
  | nil => rfl
  | cons s l ih =>
    rw [fleetCheck_cons]
    show (checkServer t ⟨[], false, []⟩ s).logs ++ (fleetCheck t l).logs = _
    rw [checkServer_logs, ih, List.filterMap_cons]
    cases serverDiag t s <;> simp

/-! ### Concrete worlds used by witnesses and scenarios -/

/-- A transport whose probes all succeed, with per-address stdout given by
the supplied table (servers authenticate by inline password). -/
def tableTransport (f : String → String) : SSHTransport :=
  ⟨⟨"", fun _ => Except.ok (), Except.ok ()⟩,
   fun _ => Except.ok (), fun _ => Except.ok (),
   fun a _ => ⟨f a, "", none⟩⟩

/-- An SMTP relay that accepts every command. -/
def smtpOK : SMTPWorld :=
  ⟨fun _ => Except.ok (), fun _ => Except.ok (), fun _ => Except.ok (),
   Except.ok (), Except.ok ()⟩

/-- Stdout table for the witness fleet: `hA` answers 10, `hB` answers 9,
`hC` answers 7, `hBad` answers non-numeric text, everything else 0. -/
def witnessOutputs (a : String) : String :=
  if a = "hA:22" then "10"
  else if a = "hB:22" then "9"
  else if a = "hC:22" then "7"
  else if a = "hBad:22" then "queue is empty"
  else "0"

/-- The witness transport over `witnessOutputs`. -/
def tWitness : SSHTransport := tableTransport witnessOutputs

/-- A witness server on host `h` with threshold `n`. -/
def witnessServer (h : String) (n : Int) : Server :=
  ⟨"mon", "pw", h, "", "mailq", n⟩

/-! ### C1 — partial-failure isolation -/

/-- C1: if probing a server fails or its output fails to parse as an
integer (`serverValue t s = none`), the loop of `main` logs one diagnostic
naming that host and continues: the report lines and the alert flag over
the whole list are exactly those produced with the failing server absent,
and the other servers' diagnostics are likewise undisturbed. -/
theorem partial_failure_isolation (t : SSHTransport) (xs ys : List Server) (s : Server)
    (h : serverValue t s = none) :
    (fleetCheck t (xs ++ s :: ys)).alerts = (fleetCheck t (xs ++ ys)).alerts ∧
    (fleetCheck t (xs ++ s :: ys)).alertMaker = (fleetCheck t (xs ++ ys)).alertMaker ∧
    ∃ d, (fleetCheck t (xs ++ s :: ys)).logs
        = (fleetCheck t xs).logs ++ d :: (fleetCheck t ys).logs ∧
      ((∃ e, d = "Error executing command on " ++ s.Host ++ ": " ++ e) ∨
       (∃ e, d = "Error parsing output on " ++ s.Host ++ ": " ++ e)) := by
  have hline : serverLine t s = none := by simp [serverLine, h]
  have hex : serverExceeded t s = false := by simp [serverExceeded, h]
  have hdiag : ∃ d, serverDiag t s = some d ∧
      ((∃ e, d = "Error executing command on " ++ s.Host ++ ": " ++ e) ∨
       (∃ e, d = "Error parsing output on " ++ s.Host ++ ": " ++ e)) := by
    unfold serverValue at h
    unfold serverDiag
    cases hr : runSSHCommand t s with
    | error e =>
      refine ⟨"Error executing command on " ++ s.Host ++ ": " ++ e, ?_, Or.inl ⟨e, rfl⟩⟩
      simp
    | ok out =>
      cases ha : atoi out with
      | error e =>
        refine ⟨"Error parsing output on " ++ s.Host ++ ": " ++ e, ?_, Or.inr ⟨e, rfl⟩⟩
        simp [ha]
      | ok v =>
        exfalso
        simp [hr, ha, Except.toOption] at h
  obtain ⟨d, hd, hshape⟩ := hdiag
  refine ⟨?_, ?_, d, ?_, hshape⟩
  · rw [fleetCheck_alerts, fleetCheck_alerts]
    simp [List.filterMap_cons, hline]
  · rw [fleetCheck_flag, fleetCheck_flag]
    simp [hex]
  · rw [fleetCheck_logs, fleetCheck_logs, fleetCheck_logs]
    simp [List.filterMap_cons, hd]

/-- Witness for C1: host `hBad` (non-numeric output) sits between `hA` and
`hC`; its failure leaves the other two servers' report lines exactly as if
it were absent, and contributes one parse diagnostic naming `hBad`. -/
theorem partial_failure_isolation_witness :
    serverValue tWitness (witnessServer "hBad" 1) = none ∧
    (fleetCheck tWitness
        [witnessServer "hA" 10, witnessServer "hBad" 1, witnessServer "hC" 3]).alerts
      = (fleetCheck tWitness [witnessServer "hA" 10, witnessServer "hC" 3]).alerts := by
  refine ⟨by decide, ?_⟩
  have h := partial_failure_isolation tWitness [witnessServer "hA" 10]
    [witnessServer "hC" 3] (witnessServer "hBad" 1) (by decide)
  exact h.1

/-! ### C2 — inclusive threshold evaluation -/

/-- C2: when a server's probe output parses as `v`, exactly one report line
is appended, and it carries the `" *"` exceeded marker if and only if
`v >= Threshold` (so `v = Threshold` is marked and `v = Threshold - 1` is
not); the marked and unmarked forms of the line are distinct strings. -/
theorem threshold_inclusive (t : SSHTransport) (st : FleetState) (s : Server) (v : Int)
    (h : serverValue t s = some v) :
    (checkServer t st s).alerts
      = st.alerts ++ [s.Host ++ ": " ++ toString v ++ (if v ≥ s.Threshold then " *" else "")] ∧
    s.Host ++ ": " ++ toString v ++ " *" ≠ s.Host ++ ": " ++ toString v := by
  constructor
  · rw [checkServer_eq_stApp]
    show st.alerts ++ (checkServer t ⟨[], false, []⟩ s).alerts = _
    rw [checkServer_alerts]
    simp [serverLine, h]
  · intro heq
    have hlen := congrArg String.length heq
    rw [String.length_append] at hlen
    have h2 : (" *" : String).length = 2 := by decide
    omega

/-- Witness for C2: with threshold 10, the boundary output 10 yields the
marked line `"hA: 10 *"` and the output 9 yields the unmarked `"hB: 9"`. -/
theorem threshold_inclusive_witness :
    serverValue tWitness (witnessServer "hA" 10) = some 10 ∧
    (checkServer tWitness ⟨[], false, []⟩ (witnessServer "hA" 10)).alerts = ["hA: 10 *"] ∧
    serverValue tWitness (witnessServer "hB" 10) = some 9 ∧
    (checkServer tWitness ⟨[], false, []⟩ (witnessServer "hB" 10)).alerts = ["hB: 9"] := by
  refine ⟨by decide, ?_, by decide, ?_⟩
  · rw [(threshold_inclusive tWitness ⟨[], false, []⟩ (witnessServer "hA" 10) 10 (by decide)).1]
    decide
  · rw [(threshold_inclusive tWitness ⟨[], false, []⟩ (witnessServer "hB" 10) 9 (by decide)).1]
    decide

/-! ### C4 — report count and order preservation -/

/-- C4: the report lines are exactly the per-server contributions in
configuration order (skipped servers are simply absent), so there are at
most as many lines as servers, and a server contributes a line exactly when
its probe output parsed. -/
theorem report_count_order (t : SSHTransport) (servers : List Server) :
    (fleetCheck t servers).alerts = servers.filterMap (serverLine t) ∧
    (fleetCheck t servers).alerts.length ≤ servers.length ∧
    ∀ s, (serverLine t s).isSome = (serverValue t s).isSome := by
  refine ⟨fleetCheck_alerts t servers, ?_, ?_⟩
  · rw [fleetCheck_alerts]
    exact List.length_filterMap_le _ _
  · intro s
    simp [serverLine]

/-! ### C3 — alert flag and dispatch invariant -/

/-- C3: `alertMaker` is raised exactly when some appended report line
carries the exceeded marker (the marked line for the offending server is in
the report); `sendEmail` runs exactly when the flag is set (a false flag
produces no SMTP trace and no log), and `sendEmail` on an empty alert list
returns success with no SMTP interaction at all. -/
theorem alert_flag_dispatch (t : SSHTransport) (w : SMTPWorld) (servers : List Server)
    (emailConfig : Email) :
    ((fleetCheck t servers).alertMaker = true ↔
      ∃ s ∈ servers, ∃ v : Int, serverValue t s = some v ∧ v ≥ s.Threshold ∧
        (s.Host ++ ": " ++ toString v ++ " *") ∈ (fleetCheck t servers).alerts) ∧
    (∀ a g : List String, mainDispatch w emailConfig ⟨a, false, g⟩ = ([], [])) ∧
    (∀ a g : List String,
      (mainDispatch w emailConfig ⟨a, true, g⟩).1 = (sendEmail w emailConfig a).2) ∧
    sendEmail w emailConfig [] = (Except.ok (), []) := by
  refine ⟨?_, ?_, ?_, rfl⟩
  · rw [fleetCheck_flag, List.any_eq_true]
    constructor
    · rintro ⟨s, hs, hexc⟩
      unfold serverExceeded at hexc
      cases hv : serverValue t s with
      | none => rw [hv] at hexc; exact absurd hexc (by simp)
      | some v =>
        rw [hv] at hexc
        have hge : v ≥ s.Threshold := of_decide_eq_true hexc
        refine ⟨s, hs, v, hv, hge, ?_⟩
        rw [fleetCheck_alerts]
        refine List.mem_filterMap.mpr ⟨s, hs, ?_⟩
        simp [serverLine, hv, hge]
    · rintro ⟨s, hs, v, hv, hge, -⟩
      exact ⟨s, hs, by simp [serverExceeded, hv, hge]⟩
  · intro a g
    simp [mainDispatch]
  · intro a g
    rcases hp : sendEmail w emailConfig a with ⟨r, steps⟩
    cases r <;> simp [mainDispatch, hp]

/-! ### C5 — email body composition and Scenario A -/

/-- The three Scenario A targets: `h1` at threshold 100, `h2` and `h3` at
threshold 10. -/
def scenarioServers : List Server :=
  [witnessServer "h1" 100, witnessServer "h2" 10, witnessServer "h3" 10]

/-- Scenario A probe outputs: 58, 86 and 46. -/
def scenarioTransport : SSHTransport :=
  tableTransport fun a =>
    if a = "h1:22" then "58" else if a = "h2:22" then "86" else "46"

/-- Email settings used by the concrete scenarios. -/
def scenarioEmail : Email :=
  ⟨"smtp.example", "25", "from@example.com", ["ops@example.com"], [], [],
   "mailq alert", "Mail queue report"⟩

/-- C5: the composed body is the configured template, a blank line, then
the report lines joined by newline; each line is `"<host>: <value>"` with
the `" *"` suffix exactly on exceeded lines. In Scenario A (values 58/86/46
against thresholds 100/10/10) the lines are `"h1: 58"`, `"h2: 86 *"`,
`"h3: 46 *"`, the flag is raised, and the email is submitted with exactly
that body. -/
theorem body_composition_scenarioA :
    (∀ (e : Email) (a : List String),
      composeBody e a = e.Messages ++ "\n\n" ++ String.intercalate "\n" a) ∧
    (fleetCheck scenarioTransport scenarioServers).alerts
      = ["h1: 58", "h2: 86 *", "h3: 46 *"] ∧
    (fleetCheck scenarioTransport scenarioServers).alertMaker = true ∧
    mainDispatch smtpOK scenarioEmail (fleetCheck scenarioTransport scenarioServers)
      = ([SMTPStep.dial "smtp.example:25", SMTPStep.mail "from@example.com",
          SMTPStep.rcpt "ops@example.com", SMTPStep.data,
          SMTPStep.write ("From: from@example.com\nTo: ops@example.com\n"
            ++ "Subject: mailq alert\n\n"
            ++ "Mail queue report" ++ "\n\n" ++ "h1: 58\nh2: 86 *\nh3: 46 *")], []) := by
  exact ⟨fun e a => rfl, by decide, by decide, by decide⟩

/-! ### C6 — headers and blind-copy semantics -/

theorem rcptLoop_ok (rs : List String) :
    rcptLoop smtpOK rs = (Except.ok (), rs.map SMTPStep.rcpt) := by
  induction rs with
  | nil => rfl
  | cons r rest ih =>
    have hr : smtpOK.rcpt r = Except.ok () := rfl
    simp [rcptLoop, hr, ih]

/-- C6: the composed message always opens with the `From` and `To` headers
(`To` joined by comma-space); a `Cc` header appears exactly when the Cc
list is non-empty; the message text is built without the Bcc list at all
(any two configurations differing only in Bcc compose identically); and
when the relay accepts every command, the recipient commands issued are
exactly the `To`, then `Cc`, then `Bcc` addresses, in that order. -/
theorem header_blind_copy (emailConfig : Email) (alerts : List String) (h : alerts ≠ []) :
    (emailConfig.Cc = [] →
      composeMsg emailConfig alerts
        = "From: " ++ emailConfig.From ++ "\nTo: "
          ++ String.intercalate ", " emailConfig.To ++ "\n"
          ++ "Subject: " ++ emailConfig.Subject ++ "\n\n" ++ composeBody emailConfig alerts) ∧
    (emailConfig.Cc ≠ [] →
      composeMsg emailConfig alerts
        = "From: " ++ emailConfig.From ++ "\nTo: "
          ++ String.intercalate ", " emailConfig.To ++ "\n"
          ++ ("Cc: " ++ String.intercalate ", " emailConfig.Cc ++ "\n")
          ++ "Subject: " ++ emailConfig.Subject ++ "\n\n" ++ composeBody emailConfig alerts) ∧
    (∀ b, composeMsg { emailConfig with Bcc := b } alerts = composeMsg emailConfig alerts) ∧
    (sendEmail smtpOK emailConfig alerts).2
      = SMTPStep.dial (emailConfig.SMTPServer ++ ":" ++ emailConfig.SMTPPort)
          :: SMTPStep.mail emailConfig.From
          :: (emailConfig.To ++ emailConfig.Cc ++ emailConfig.Bcc).map SMTPStep.rcpt
          ++ [SMTPStep.data, SMTPStep.write (composeMsg emailConfig alerts)] := by
  refine ⟨?_, ?_, fun b => rfl, ?_⟩
  · intro hcc
    simp [composeMsg, hcc]
  · intro hcc
    have hpos : emailConfig.Cc.length > 0 := List.length_pos.mpr hcc
    simp [composeMsg, hpos]
  · have hlen : ¬ alerts.length = 0 := by simpa [List.length_eq_zero] using h
    have hd : smtpOK.dial (emailConfig.SMTPServer ++ ":" ++ emailConfig.SMTPPort)
        = Except.ok () := rfl
    have hm : smtpOK.mail emailConfig.From = Except.ok () := rfl
    have hdata : smtpOK.dataCall = Except.ok () := rfl
    have hw : smtpOK.writeCall = Except.ok () := rfl
    simp [sendEmail, hlen, hd, hm, hdata, hw, rcptLoop_ok]

/-- Email settings exercising Cc and Bcc for the C6 witness. -/
def witnessEmail : Email :=
  ⟨"relay.example", "2525", "noreply@example.com",
   ["a@example.com", "b@example.com"], ["c@example.com"], ["hidden@example.com"],
   "subj", "tmpl"⟩

/-- Witness for C6: with one Cc and one Bcc address, the message text shows
the Cc header but no trace of the Bcc address, while the relay receives all
four recipients in To, Cc, Bcc order. -/
theorem header_blind_copy_witness :
    composeMsg witnessEmail ["h: 1 *"]
      = "From: noreply@example.com\nTo: a@example.com, b@example.com\n"
        ++ "Cc: c@example.com\nSubject: subj\n\ntmpl\n\nh: 1 *" ∧
    (sendEmail smtpOK witnessEmail ["h: 1 *"]).2
      = [SMTPStep.dial "relay.example:2525", SMTPStep.mail "noreply@example.com",
         SMTPStep.rcpt "a@example.com", SMTPStep.rcpt "b@example.com",
         SMTPStep.rcpt "c@example.com", SMTPStep.rcpt "hidden@example.com",
         SMTPStep.data, SMTPStep.write (composeMsg witnessEmail ["h: 1 *"])] := by
  have h := header_blind_copy witnessEmail ["h: 1 *"] (by decide)
  constructor
  · rw [h.2.1 (by decide)]
    decide
  · rw [h.2.2.2]
    decide

/-! ### C7 — probe output normalization and failure payload -/

theorem all_takeWhile_self (p : Char → Bool) (l : List Char) :
    (l.takeWhile p).all p = true := by
  induction l with
  | nil => rfl
  | cons c l ih =>
    rw [List.takeWhile_cons]
    by_cases h : p c
    · simp [h, ih]
    · simp [h]

theorem head_dropWhile_false (p : Char → Bool) (l : List Char) :
    ∀ c, (l.dropWhile p).head? = some c → p c = false := by
  induction l with
  | nil => intro c hc; simp at hc
  | cons a l ih =>
    intro c hc
    rw [List.dropWhile_cons] at hc
    by_cases h : p a
    · rw [if_pos h] at hc
      exact ih c hc
    · rw [if_neg h] at hc
      simp at hc
      subst hc
      simpa using h

theorem trimWhile_decomp (p : Char → Bool) (l : List Char) :
    l = l.takeWhile p ++ ((l.dropWhile p).reverse.dropWhile p).reverse
          ++ ((l.dropWhile p).reverse.takeWhile p).reverse := by
  conv_lhs => rw [← List.takeWhile_append_dropWhile (p := p) (l := l)]
  rw [List.append_assoc]
  congr 1
  conv_lhs => rw [← List.reverse_reverse (l.dropWhile p)]
  rw [← List.reverse_append, List.takeWhile_append_dropWhile]

theorem trim_head_false (p : Char → Bool) (l : List Char) :
    ∀ c, (((l.dropWhile p).reverse.dropWhile p).reverse).head? = some c → p c = false := by
  intro c hc
  have hl1 : l.dropWhile p
      = ((l.dropWhile p).reverse.dropWhile p).reverse
          ++ ((l.dropWhile p).reverse.takeWhile p).reverse := by
    conv_lhs => rw [← List.reverse_reverse (l.dropWhile p)]
    rw [← List.reverse_append, List.takeWhile_append_dropWhile]
  cases htl : ((l.dropWhile p).reverse.dropWhile p).reverse with
  | nil => rw [htl] at hc; simp at hc
  | cons a tl =>
    rw [htl] at hc
    simp at hc
    subst hc
    refine head_dropWhile_false p l a ?_
    rw [hl1, htl]
    rfl

theorem trim_last_false (p : Char → Bool) (l : List Char) :
    ∀ c, (((l.dropWhile p).reverse.dropWhile p).reverse).getLast? = some c → p c = false := by
  intro c hc
  rw [List.getLast?_reverse] at hc
  exact head_dropWhile_false p _ c hc

/-- Decomposition of `trimSpace`: the input is a whitespace prefix, the
returned string, and a whitespace suffix, and the returned string starts
and ends with non-whitespace. -/
theorem trimSpace_spec (s0 : String) :
    ∃ pre post : List Char,
      pre.all goIsSpace = true ∧ post.all goIsSpace = true ∧
      s0.data = pre ++ (trimSpace s0).data ++ post ∧
      (∀ c, (trimSpace s0).data.head? = some c → goIsSpace c = false) ∧
      (∀ c, (trimSpace s0).data.getLast? = some c → goIsSpace c = false) := by
  refine ⟨s0.data.takeWhile goIsSpace,
    ((s0.data.dropWhile goIsSpace).reverse.takeWhile goIsSpace).reverse,
    all_takeWhile_self _ _, ?_, ?_, ?_, ?_⟩
  · rw [List.all_reverse]
    exact all_takeWhile_self _ _
  · exact trimWhile_decomp goIsSpace s0.data
  · exact trim_head_false goIsSpace s0.data
  · exact trim_last_false goIsSpace s0.data

/-- C7: when authentication, connection and session setup succeed, a clean
command completion makes `runSSHCommand` return the captured stdout with
leading and trailing whitespace trimmed (stderr plays no part in it), while
a failed completion returns an error whose message carries the separately
captured stderr; and `trimSpace` really strips exactly the edge
whitespace. -/
theorem probe_output_normalization (t : SSHTransport) (server : Server) (m : AuthMethod)
    (out errS : String)
    (hauth : getSSHAuthMethod t.agent server.Password = Except.ok m)
    (hdial : t.dial (server.Host ++ ":" ++ server.GetPort) = Except.ok ())
    (hsess : t.newSession (server.Host ++ ":" ++ server.GetPort) = Except.ok ()) :
    (t.exec (server.Host ++ ":" ++ server.GetPort) server.Commands = ⟨out, errS, none⟩ →
      runSSHCommand t server = Except.ok (trimSpace out)) ∧
    (∀ em, t.exec (server.Host ++ ":" ++ server.GetPort) server.Commands = ⟨out, errS, some em⟩ →
      runSSHCommand t server
        = Except.error ("failed to run command on " ++ server.Host ++ ": " ++ em
            ++ ", stderr: " ++ errS)) ∧
    (∀ s0 : String, ∃ pre post : List Char,
      pre.all goIsSpace = true ∧ post.all goIsSpace = true ∧
      s0.data = pre ++ (trimSpace s0).data ++ post ∧
      (∀ c, (trimSpace s0).data.head? = some c → goIsSpace c = false) ∧
      (∀ c, (trimSpace s0).data.getLast? = some c → goIsSpace c = false)) := by
  refine ⟨?_, ?_, fun s0 => trimSpace_spec s0⟩
  · intro hexec
    simp [runSSHCommand, hauth, hdial, hsess, hexec]
  · intro em hexec
    simp [runSSHCommand, hauth, hdial, hsess, hexec]

/-- A transport whose command completes with status 127 and diagnostic
stderr output. -/
def tFail : SSHTransport :=
  ⟨⟨"", fun _ => Except.ok (), Except.ok ()⟩,
   fun _ => Except.ok (), fun _ => Except.ok (),
   fun _ _ => ⟨"", "mailq: command not found", some "Process exited with status 127"⟩⟩

/-- Witness for C7: a clean probe of `hA` returns the trimmed output
`"10"`; a failing probe surfaces the captured stderr in its message. -/
theorem probe_output_normalization_witness :
    runSSHCommand tWitness (witnessServer "hA" 10) = Except.ok "10" ∧
    runSSHCommand tFail (witnessServer "hA" 10)
      = Except.error ("failed to run command on hA: Process exited with status 127"
          ++ ", stderr: mailq: command not found") := by
  constructor
  · have h := probe_output_normalization tWitness (witnessServer "hA" 10)
      (AuthMethod.password "pw") "10" "" rfl rfl rfl
    rw [h.1 (by decide)]
    rfl
  · have h := probe_output_normalization tFail (witnessServer "hA" 10)
      (AuthMethod.password "pw") "" "mailq: command not found" rfl rfl rfl
    rw [h.2.1 "Process exited with status 127" (by decide)]
    rfl

/-! ### C8 — behaviour on submission failure -/

/-- An SMTP relay that refuses the connection. -/
def smtpFail : SMTPWorld :=
  ⟨fun _ => Except.error "connection refused", fun _ => Except.ok (),
   fun _ => Except.ok (), Except.ok (), Except.ok ()⟩

/-- A valid configuration with one server at threshold 0 (so the probe
value 0 raises the alert flag and `sendEmail` runs). -/
def cfgAlert : Config := ⟨[witnessServer "h1" 0], scenarioEmail⟩

/-- C8 counterexample: with the relay refusing the connection, the run logs
the submission failure — but `main` only calls `log.Printf` and then
returns, so the process exit status is 0, not the non-zero status the claim
requires. -/
theorem submission_exit_counterexample :
    (mainRun tWitness smtpFail cfgAlert).dispatchLogs
      = ["Error sending email: failed to connect to SMTP server: connection refused"] ∧
    (mainRun tWitness smtpFail cfgAlert).exitCode = 0 := by
  decide

/-- C8 (amended): for every run in which `sendEmail` returns an error, the
failure is logged and the probing phase's results stand unchanged in the
run's outcome — but the process exits with status 0: the submission error
is only logged, so the exit status does not distinguish delivery failure
from success. -/
theorem submission_failure_logged (t : SSHTransport) (w : SMTPWorld) (config : Config)
    (e : String) (steps : List SMTPStep)
    (hval : validateConfig config = none)
    (hflag : (fleetCheck t config.Servers).alertMaker = true)
    (hsend : sendEmail w config.Email (fleetCheck t config.Servers).alerts
      = (Except.error e, steps)) :
    mainRun t w config
      = ⟨fleetCheck t config.Servers, steps, ["Error sending email: " ++ e], 0⟩ := by
  unfold mainRun
  rw [hval]
  simp [mainDispatch, hflag, hsend]

/-- Witness for C8 (amended): the concrete failing run keeps the probe
results, logs the submission error, and exits 0. -/
theorem submission_failure_logged_witness :
    mainRun tWitness smtpFail cfgAlert
      = ⟨fleetCheck tWitness cfgAlert.Servers, [SMTPStep.dial "smtp.example:25"],
         ["Error sending email: failed to connect to SMTP server: connection refused"], 0⟩ := by
  exact submission_failure_logged tWitness smtpFail cfgAlert
    "failed to connect to SMTP server: connection refused"
    [SMTPStep.dial "smtp.example:25"] (by decide) (by decide) rfl

/-! ### C9 — command character-set validation -/

/-- Modelled from the spec: one character of the claimed allow-set
`[A-Za-z0-9_./|<space>><{},=-]`, where `<space>` denotes the space
character only. -/
def specCommandChar (c : Char) : Bool :=
  isAlnumC c || c ∈ ['_', '.', '/', '|', ' ', '>', '<', '{', '}', ',', '=', '-']

/-- A configuration whose only command contains a tab character. -/
def cfgTab : Config := ⟨[⟨"mon", "pw", "h1", "", "mailq\t| wc -l", 10⟩], scenarioEmail⟩

/-- C9 counterexample: the command `"mailq\t| wc -l"` contains a tab, a
character outside the claimed allow-set, yet `validateConfig` accepts the
configuration: the source regex uses `\s`, which admits tab, newline, form
feed and carriage return besides the space. -/
theorem command_charset_counterexample :
    validateConfig cfgTab = none ∧
    '\t' ∈ "mailq\t| wc -l".data ∧
    specCommandChar '\t' = false := by
  decide

/-- C9 (amended): provided the username, host and threshold checks pass,
the per-server validation accepts exactly the non-empty commands all of
whose characters lie in the source regex class — alphanumerics,
`_ - . / | > < { } , =`, and RE2 `\s` whitespace (space, tab, newline,
form feed, carriage return); any other character (and the empty command)
is rejected. -/
theorem command_charset (i : Nat) (server : Server)
    (hu : server.User ≠ "" ∧ validUsername server.User = true)
    (hh : server.Host ≠ "" ∧ (validHostname server.Host || goParseIPv4 server.Host) = true)
    (ht : ¬ server.Threshold < 0) :
    (validateServer i server).1 = none ↔
      server.Commands.data ≠ [] ∧ ∀ c ∈ server.Commands.data, goCommandChar c = true := by
  obtain ⟨hu1, hu2⟩ := hu
  obtain ⟨hh1, hh2⟩ := hh
  have hcomm : (server.Commands = "") ↔ server.Commands.data = [] := by
    rw [String.ext_iff]
  unfold validateServer
  rw [if_neg (fun h => h.elim hu1 (fun h2 => h2 hu2)), if_neg hh1, if_neg (fun h => h hh2)]
  constructor
  · intro hnone
    by_cases hc : server.Commands = ""
    · rw [if_pos hc] at hnone
      simp at hnone
    · rw [if_neg hc] at hnone
      by_cases hv : validCommand server.Commands = true
      · refine ⟨fun hnil => hc (hcomm.mpr hnil), ?_⟩
        unfold validCommand at hv
        rw [Bool.and_eq_true, List.all_eq_true] at hv
        exact hv.2
      · rw [if_pos hv] at hnone
        simp at hnone
  · rintro ⟨hnil, hall⟩
    have hc : ¬ server.Commands = "" := fun h => hnil (hcomm.mp h)
    rw [if_neg hc]
    have hv : validCommand server.Commands = true := by
      unfold validCommand
      rw [Bool.and_eq_true]
      refine ⟨by simp [List.isEmpty_iff, hnil], ?_⟩
      rw [List.all_eq_true]
      exact hall
    rw [if_neg (fun h => h hv), if_neg ht]

/-- Witness for C9 (amended): the command `"mailq | grep -c ^q"` (space,
pipe, caret-free characters from the class) passes the per-server checks. -/
theorem command_charset_witness :
    (validateServer 0 ⟨"mon", "pw", "h1", "", "mailq | wc -l", 10⟩).1 = none ∧
    (validateServer 0 ⟨"mon", "pw", "h1", "", "mailq; rm", 10⟩).1 ≠ none := by
  constructor
  · exact (command_charset 0 ⟨"mon", "pw", "h1", "", "mailq | wc -l", 10⟩
      ⟨by decide, by decide⟩ ⟨by decide, by decide⟩ (by decide)).mpr (by decide)
  · intro hnone
    have h := (command_charset 0 ⟨"mon", "pw", "h1", "", "mailq; rm", 10⟩
      ⟨by decide, by decide⟩ ⟨by decide, by decide⟩ (by decide)).mp hnone
    have : goCommandChar ';' = true := h.2 ';' (by decide)
    exact absurd this (by decide)

/-! ### C10 — validation frame and default port -/

/-- C10: `validateConfig` leaves the caller-observable configuration
unchanged — the default-port assignment inside the loop writes to the
per-iteration copy only (that copy does receive port `"22"` when the
checks pass and the port was omitted, and is untouched otherwise); the
default is applied at connection time instead: `GetPort` yields `"22"`
exactly for an omitted port and the configured port otherwise, and probing
a server with an omitted port behaves identically to probing it with port
`"22"`. -/
theorem validate_frame_getport (config : Config) (i : Nat) (server s : Server)
    (t : SSHTransport) :
    (validateConfigFull config).2 = config ∧
    ((validateServer i server).1 = none → server.Port = "" →
      (validateServer i server).2.Port = "22") ∧
    ((validateServer i server).1 = none → server.Port ≠ "" →
      (validateServer i server).2 = server) ∧
    (s.Port = "" → s.GetPort = "22") ∧
    (s.Port ≠ "" → s.GetPort = s.Port) ∧
    (s.Port = "" → runSSHCommand t s = runSSHCommand t { s with Port := "22" }) := by
  refine ⟨rfl, ?_, ?_, ?_, ?_, ?_⟩
  · intro hok hport
    unfold validateServer at hok ⊢
    split_ifs at hok ⊢
    simp_all
  · intro hok hport
    unfold validateServer at hok ⊢
    split_ifs at hok ⊢
    simp_all
  · intro h
    simp [Server.GetPort, h]
  · intro h
    simp [Server.GetPort, h]
  · intro h
    simp [runSSHCommand, Server.GetPort, h]

/-- Witness for C10: a server with an omitted port passes validation with
its loop copy set to port 22, `GetPort` supplies 22, and the probe is the
same as with an explicit port 22; the observable configuration is
unchanged. -/
theorem validate_frame_getport_witness :
    (validateConfigFull cfgAlert).2 = cfgAlert ∧
    (validateServer 0 (witnessServer "h1" 0)).2.Port = "22" ∧
    (witnessServer "h1" 0).GetPort = "22" ∧
    runSSHCommand tWitness (witnessServer "h1" 0)
      = runSSHCommand tWitness { witnessServer "h1" 0 with Port := "22" } := by
  have h := validate_frame_getport cfgAlert 0 (witnessServer "h1" 0) (witnessServer "h1" 0)
    tWitness
  exact ⟨h.1, h.2.1 (by decide) (by decide), h.2.2.2.1 (by decide),
    h.2.2.2.2.2 (by decide)⟩

end MailqMonitor
